import Mathlib

/-!
Verification of the `cv` progress monitor (files `cv.py` and `cv/util.py`).

The program inspects `/proc` for processes whose executable basename matches a
configured list, selects per process the open regular/block file with the
largest size, and reports a progress value and an optional smoothed throughput
rate.  The filesystem side effects (`os.listdir`, `os.readlink`, `os.stat`,
reads of `/proc/<pid>/fdinfo/<fd>`, `time.time()`) are modelled by a record of
oracle functions `FS`; a call that raises `OSError` (or otherwise fails) is an
oracle returning `none`, and Python exceptions escaping a function are the
`Except.error` case.  Numbers: sizes and offsets are `Nat`, time stamps and
rates are `Rat` (all float arithmetic performed by the program on these values
is exact division, so `Rat` is a faithful model on the inputs considered).
-/

namespace Cv

/-- `MAX_PIDS = 32` (`cv.py` line 20). -/
def MAX_PIDS : Nat := 32

/-- `MAX_FD_PER_PID = 512` (`cv.py` line 21). -/
def MAX_FD_PER_PID : Nat := 512

/-- `THROUGHPUT_SAMPLE_SIZE = 3` (`cv.py` line 22). -/
def THROUGHPUT_SAMPLE_SIZE : Nat := 3

/-- The parts of an `os.stat` result the program looks at: `S_ISREG`,
`S_ISBLK` and `st_size`. -/
structure Stat where
  isReg : Bool
  isBlk : Bool
  size : Nat
deriving DecidableEq

/-- `FdInfo` (`cv.py` lines 41-49): descriptor number, backing size, current
offset, resolved path and sampling time. -/
structure FdInfo where
  num : Nat
  size : Nat
  pos : Nat
  name : String
  tv : Rat
deriving DecidableEq

/-- `PidInfo` (`cv.py` lines 24-29). -/
structure PidInfo where
  pid : Nat
  name : String
deriving DecidableEq

/-- `Result` (`cv.py` lines 31-39, filled at lines 239-245).  `fd` is `none`
when the loop at lines 232-236 never replaced the integer sentinel `0` stored
in `fd_biggest` (which happens exactly when every inspected descriptor has
size 0). `hbegin`, `hend`, `hsize` are written but never read by the program. -/
structure Result where
  pid : PidInfo
  fd : Option FdInfo
  hbegin : Option Unit
  hend : Option Unit
  hsize : Nat
deriving DecidableEq

/-- `AppConfig` (`cv.py` lines 51-58). -/
structure AppConfig where
  curses : Bool
  monitor : Bool
  monitor_continuous : Bool
  quiet : Bool
  throughput : Bool
  throughput_wait_secs : Nat
  proc_names : List String

/-- Oracle model of the `/proc` filesystem and the clock, one record per
snapshot phase.  A `none` result models the corresponding OS call raising
`OSError` (process or descriptor vanished, or permission denied). -/
structure FS where
  /-- `os.listdir('/proc')`; `none` when the listing itself fails. -/
  procEntries : Option (List String)
  /-- `os.path.isdir('/proc/' + e)`. -/
  isDir : String → Bool
  /-- `os.readlink('/proc/<pid>/exe')`, keyed by the raw directory entry. -/
  exeLink : String → Option String
  /-- `os.listdir('/proc/<pid>/fd')`. -/
  fdDir : Nat → Option (List Nat)
  /-- `os.stat('/proc/<pid>/fd/<fd>')`. -/
  fdStat : Nat → Nat → Option Stat
  /-- `os.readlink('/proc/<pid>/fd/<fd>')`. -/
  fdLink : Nat → Nat → Option String
  /-- offset parsed from `/proc/<pid>/fdinfo/<fd>`; `none` when the open or
  the parse fails. -/
  fdPos : Nat → Nat → Option Nat
  /-- value of `time.time()` during the `get_fdinfo` call for this key. -/
  ftime : Nat → Nat → Rat

/-- Python `str.isdigit`: nonempty and all digits (over the character list,
so that it evaluates by reduction). -/
def isdigitStr (s : String) : Bool := !s.data.isEmpty && s.data.all Char.isDigit

/-- Python `int(...)` on a digit string. -/
def strToNat (s : String) : Nat :=
  s.data.foldl (fun n c => n * 10 + (c.toNat - 48)) 0

/-- `os.path.basename`: the part after the last slash. -/
def basename (p : String) : String :=
  ⟨p.data.foldl (fun acc c => if c = '/' then [] else acc ++ [c]) []⟩

/-- `get_pids` (`cv.py` lines 89-90):
`[e for e in os.listdir('/proc') if e.isdigit() and os.path.isdir('/proc/'+e)]`.
The `os.listdir('/proc')` call is not wrapped in any handler, so a failure of
the listing itself escapes as an exception. -/
def get_pids (fs : FS) : Except Unit (List String) :=
  match fs.procEntries with
  | none => Except.error ()
  | some es => Except.ok (es.filter (fun e => isdigitStr e && fs.isDir e))

/-- Loop body of `find_pids_by_binary_name` (`cv.py` lines 103-113): readlink
failures are skipped, matches are appended, and the loop breaks once the
accumulated count equals `max_pids`. -/
def find_pids_go (fs : FS) (bin_name : String) (max_pids : Option Nat) :
    List String → List PidInfo → List PidInfo
  | [], acc => acc
  | pid :: rest, acc =>
    match fs.exeLink pid with
    | none => find_pids_go fs bin_name max_pids rest acc
    | some exe =>
      if basename exe = bin_name then
        let acc2 := acc ++ [⟨strToNat pid, basename bin_name⟩]
        if max_pids = some acc2.length then acc2
        else find_pids_go fs bin_name max_pids rest acc2
      else find_pids_go fs bin_name max_pids rest acc

/-- `find_pids_by_binary_name` (`cv.py` lines 92-114).  An empty `bin_name`
raises `ValueError`; the `get_pids` call is unguarded, so its failure
propagates.  (The `max_pids < 0` guard is unrepresentable at type `Option Nat`
and the program only calls this with `max_pids=None`.) -/
def find_pids_by_binary_name (fs : FS) (bin_name : String) (max_pids : Option Nat) :
    Except Unit (List PidInfo) :=
  if bin_name = "" then Except.error ()
  else
    match get_pids fs with
    | Except.error e => Except.error e
    | Except.ok pids => Except.ok (find_pids_go fs bin_name max_pids pids [])

/-- Loop body of `find_fd_for_pid` (`cv.py` lines 128-140): a failing stat is
skipped (after a message on stderr, not modelled), non-regular non-block
descriptors are skipped, and the loop breaks when `len(fds) == max_fd`. -/
def find_fd_go (fs : FS) (pid : Nat) (max_fd : Option Nat) :
    List Nat → List Nat → List Nat
  | fds, [] => fds
  | fds, fd :: rest =>
    match fs.fdStat pid fd with
    | none => find_fd_go fs pid max_fd fds rest
    | some st =>
      if !(st.isReg || st.isBlk) then find_fd_go fs pid max_fd fds rest
      else
        let fds2 := fds ++ [fd]
        if max_fd = some fds2.length then fds2
        else find_fd_go fs pid max_fd fds2 rest

/-- `find_fd_for_pid` (`cv.py` lines 116-141): returns `[]` when the
descriptor directory cannot be listed. -/
def find_fd_for_pid (fs : FS) (pid : Nat) (max_fd : Option Nat) : List Nat :=
  match fs.fdDir pid with
  | none => []
  | some dir_list => find_fd_go fs pid max_fd [] dir_list

/-- `get_fdinfo` (`cv.py` lines 143-162).  None of the OS calls inside it is
guarded, so any failure (readlink, stat, offset read) escapes as an exception.
The `S_ISBLK` branch (lines 151-155) references `struct.unpack` although the
module never imports `struct`, so reaching it always raises (`NameError`, or
`IOError` from the `open` before it); it is modelled as unconditional failure. -/
def get_fdinfo (fs : FS) (pid fdnum : Nat) : Except Unit FdInfo :=
  match fs.fdLink pid fdnum with
  | none => Except.error ()
  | some name =>
    match fs.fdStat pid fdnum with
    | none => Except.error ()
    | some st =>
      if st.isBlk then Except.error ()
      else
        match fs.fdPos pid fdnum with
        | none => Except.error ()
        | some pos => Except.ok ⟨fdnum, st.size, pos, name, fs.ftime pid fdnum⟩

/-- Inner loop of `moving_average` (`cv/util.py` lines 16-19, identical to
`cv.py` lines 69-72): `d` is the deque, `s` the running sum. -/
def moving_average_go (n : Nat) : List Rat → Rat → List Rat → List Rat
  | _, _, [] => []
  | d, s, e :: rest =>
    let s2 := s + e - d.headI
    (s2 / (n : Rat)) :: moving_average_go n (d.tail ++ [e]) s2 rest

/-- `moving_average` (`cv/util.py` lines 9-19, identical to `cv.py` lines
62-72): the deque starts as `0` prepended to the first `n-1` elements, and
one value is yielded per remaining element. -/
def moving_average (l : List Rat) (n : Nat) : List Rat :=
  let d := 0 :: l.take (n - 1)
  moving_average_go n d d.sum (l.drop (n - 1))

/-- Unit-selection loop of `format_size` (`cv/util.py` lines 24-28, identical
to `cv.py` lines 77-81): returns the value passed to `"%3.1f %s"` together
with the chosen unit. -/
def format_size_go : List String → Rat → Rat × String
  | [], n => (n, "TB")
  | u :: us, n =>
    if n < 1024 ∧ -1024 < n then (n, u) else format_size_go us (n / 1024)

/-- `format_size` (`cv/util.py` lines 21-28). -/
def format_size (n : Rat) : Rat × String :=
  format_size_go ["bytes", "KB", "MB", "GB"] n

/-- Accumulation of `fd_size_max` / `fd_biggest` (`cv.py` lines 224-236)
as a pure function of the fetched `FdInfo` list; `none` is the integer
sentinel `0` that `fd_biggest` starts from. -/
def fd_biggest_aux : List FdInfo → Nat → Option FdInfo → Option FdInfo
  | [], _, best => best
  | f :: rest, szmax, best =>
    if szmax < f.size then fd_biggest_aux rest f.size (some f)
    else fd_biggest_aux rest szmax best

/-- Active-file selection over an already fetched descriptor-info list:
`fd_size_max = 0`, `fd_biggest = 0` initially (`cv.py` lines 224-225). -/
def select_biggest (fds : List FdInfo) : Option FdInfo := fd_biggest_aux fds 0 none

/-- The descriptor loop of `monitor_processes` (`cv.py` lines 232-236):
each `get_fdinfo` call is unguarded, and the running maximum is updated when
`fd_info.size > fd_size_max`. -/
def scan_fds (fs : FS) (pid : Nat) : List Nat → Nat → Option FdInfo → Except Unit (Option FdInfo)
  | [], _, fd_biggest => Except.ok fd_biggest
  | fd :: rest, fd_size_max, fd_biggest =>
    match get_fdinfo fs pid fd with
    | Except.error e => Except.error e
    | Except.ok fd_info =>
      if fd_size_max < fd_info.size then scan_fds fs pid rest fd_info.size (some fd_info)
      else scan_fds fs pid rest fd_size_max fd_biggest

/-- The throughput-history update (`cv.py` lines 277-286): raises on a zero
`sec_diff` (Python `ZeroDivisionError`), truncates the key's history to its
first `THROUGHPUT_SAMPLE_SIZE - 1` entries, appends the new instantaneous
rate, and reports the last value of the window-3 moving average (0 when the
average list is empty). -/
def throughput_update (hist : List Rat) (sec_diff : Rat) (byte_diff : Int) :
    Except Unit (List Rat × Rat) :=
  if sec_diff = 0 then Except.error ()
  else
    let hist2 := hist.take (THROUGHPUT_SAMPLE_SIZE - 1) ++ [(byte_diff : Rat) / sec_diff]
    Except.ok (hist2, ((moving_average hist2 3).getLast?).getD 0)

/-- One rendered progress line (`cv.py` lines 268-287): the `"%.1f%%"` value,
the raw position and size fed through `format_size`, and the rate appended by
the `" %s/s"` print when the throughput block ran (`none` when it did not run
at all, i.e. no rate is shown). -/
structure ProgLine where
  pid : Nat
  pname : String
  fname : String
  pcnt : Rat
  pos : Nat
  size : Nat
  rate : Option Rat
deriving DecidableEq

/-- One line of operator-visible output of `monitor_processes`, in `nprint`
order. -/
inductive OutLine where
  | noCommand : List String → OutLine
  | inactive : Nat → String → OutLine
  | progress : ProgLine → OutLine
deriving DecidableEq

/-- Python return value of `monitor_processes`: the integer `0` (lines 214,
219) or the `results` list (line 289). -/
inductive MonitorRet where
  | intRet : Nat → MonitorRet
  | listRet : List Result → MonitorRet
deriving DecidableEq

/-- Python truthiness of the `monitor_processes` return value, as tested by
`main` (`cv.py` lines 344-346). -/
def is_truthy : MonitorRet → Bool
  | MonitorRet.intRet n => n != 0
  | MonitorRet.listRet rs => !rs.isEmpty

/-- The name-collection loop of `monitor_processes` (`cv.py` lines 206-209);
the `if p:` guard before `extend` does not change the concatenation.  A
`ValueError` from `find_pids_by_binary_name`, or an `OSError` from the
unguarded `get_pids` inside it, propagates. -/
def collect_pids (fs : FS) : List String → Except Unit (List PidInfo)
  | [] => Except.ok []
  | name :: rest =>
    match find_pids_by_binary_name fs name none with
    | Except.error e => Except.error e
    | Except.ok p =>
      match collect_pids fs rest with
      | Except.error e => Except.error e
      | Except.ok ps => Except.ok (p ++ ps)

/-- The first per-pid loop of `monitor_processes` (`cv.py` lines 221-245):
an empty (truncated) descriptor list prints the `inactive/flushing/streaming`
line and skips the process; otherwise the descriptors are scanned (each
`get_fdinfo` unguarded) and a `Result` is stored. -/
def phase1 (fs : FS) : List PidInfo → Except Unit (List OutLine × List Result)
  | [] => Except.ok ([], [])
  | pinfo :: rest =>
    let fds := (find_fd_for_pid fs pinfo.pid none).take MAX_FD_PER_PID
    if fds.isEmpty then
      match phase1 fs rest with
      | Except.error e => Except.error e
      | Except.ok (ls, rs) => Except.ok (OutLine.inactive pinfo.pid pinfo.name :: ls, rs)
    else
      match scan_fds fs pinfo.pid fds 0 none with
      | Except.error e => Except.error e
      | Except.ok best =>
        match phase1 fs rest with
        | Except.error e => Except.error e
        | Except.ok (ls, rs) => Except.ok (ls, ⟨pinfo, best, none, none, 0⟩ :: rs)

/-- The body of the report loop of `monitor_processes` (`cv.py` lines
254-287) for one `Result`, over the second (post-sleep) snapshot `fs2`.
When `result.fd` holds the integer sentinel `0` (no descriptor of positive
size was found), `fd.pos` / `result.fd.num` raise `AttributeError`, modelled
as `Except.error`.  In throughput mode the descriptor is re-sampled
(unguarded); when the re-resolved path matches, the fresh sample replaces
`fd` and feeds the throughput history; otherwise `cur_fd_info` is dropped and
the stale first sample is reported with no rate. -/
def report_result (fs2 : FS) (cfg : AppConfig) (tbl : Nat × Nat → List Rat) (r : Result) :
    Except Unit (OutLine × (Nat × Nat → List Rat)) :=
  match r.fd with
  | none => Except.error ()
  | some rfd =>
    let sampleE : Except Unit (Option FdInfo) :=
      if cfg.throughput then
        match get_fdinfo fs2 r.pid.pid rfd.num with
        | Except.error e => Except.error e
        | Except.ok cur => Except.ok (if cur.name = rfd.name then some cur else none)
      else Except.ok none
    match sampleE with
    | Except.error e => Except.error e
    | Except.ok sample =>
      let fd := sample.getD rfd
      let pcnt : Rat := if 0 < fd.pos ∧ 0 < fd.size then (fd.pos : Rat) / (fd.size : Rat) else 0
      match sample with
      | some cur =>
        let sec_diff : Rat := cur.tv - rfd.tv
        let byte_diff : Int := (cur.pos : Int) - (rfd.pos : Int)
        let tkey := (r.pid.pid, cur.num)
        match throughput_update (tbl tkey) sec_diff byte_diff with
        | Except.error e => Except.error e
        | Except.ok (hist2, rate) =>
          Except.ok (OutLine.progress ⟨r.pid.pid, r.pid.name, cur.name, pcnt, cur.pos, cur.size, some rate⟩,
            fun k => if k = tkey then hist2 else tbl k)
      | none =>
        Except.ok (OutLine.progress ⟨r.pid.pid, r.pid.name, rfd.name, pcnt, rfd.pos, rfd.size, none⟩, tbl)

/-- The report loop of `monitor_processes` (`cv.py` lines 254-287), threading
the throughput table. -/
def phase2 (fs2 : FS) (cfg : AppConfig) :
    (Nat × Nat → List Rat) → List Result → Except Unit (List OutLine × (Nat × Nat → List Rat))
  | tbl, [] => Except.ok ([], tbl)
  | tbl, r :: rest =>
    match report_result fs2 cfg tbl r with
    | Except.error e => Except.error e
    | Except.ok (line, tbl2) =>
      match phase2 fs2 cfg tbl2 rest with
      | Except.error e => Except.error e
      | Except.ok (ls, tblF) => Except.ok (line :: ls, tblF)

/-- `monitor_processes` (`cv.py` lines 191-289).  `fs1` is the snapshot used
for discovery and first sampling, `fs2` the snapshot after the optional
sleep.  The `throughputs is None` guard is unrepresentable here (a table is
always passed); an empty `config.proc_names` raises `ValueError`.  The sleep
and the curses clear/refresh calls produce no operator-visible line. -/
def monitor_processes (fs1 fs2 : FS) (cfg : AppConfig) (tbl : Nat × Nat → List Rat) :
    Except Unit (MonitorRet × List OutLine × (Nat × Nat → List Rat)) :=
  if cfg.proc_names.isEmpty then Except.error ()
  else
    match collect_pids fs1 cfg.proc_names with
    | Except.error e => Except.error e
    | Except.ok allPids =>
      let pidinfos := allPids.take MAX_PIDS
      if pidinfos.isEmpty then
        if cfg.quiet then Except.ok (MonitorRet.intRet 0, [], tbl)
        else Except.ok (MonitorRet.intRet 0, [OutLine.noCommand cfg.proc_names], tbl)
      else
        match phase1 fs1 pidinfos with
        | Except.error e => Except.error e
        | Except.ok (lines1, results) =>
          match phase2 fs2 cfg tbl results with
          | Except.error e => Except.error e
          | Except.ok (lines2, tbl2) =>
            Except.ok (MonitorRet.listRet results, lines1 ++ lines2, tbl2)

/-- Stated from the spec's words, for comparison with `moving_average`
(spec §4.4: "for window size n over a sequence, emit one average per
position once n elements have been seen, each average = sum of the trailing
n elements / n"). -/
def movingAverageSpec (n : Nat) (l : List Rat) : List Rat :=
  (List.range (l.length + 1 - n)).map (fun j => (((l.drop j).take n).sum) / (n : Rat))

/-- The five units of `format_size`, smallest first. -/
def sizeUnits : List String := ["bytes", "KB", "MB", "GB", "TB"]

/-- Stated from the spec's words, for comparison with `format_size`
(spec §4.5: "choose the smallest unit in {bytes, KB, MB, GB, TB} such that
the scaled magnitude's absolute value is below 1024", TB having no upper
bound). -/
def formatSizeSpec (s : Rat) : Rat × String :=
  let k := ((List.range 4).find? (fun k => decide (|s / 1024 ^ k| < 1024))).getD 4
  (s / 1024 ^ k, sizeUnits.getD k "TB")

/-!  Concrete states used to evaluate the cycle end to end. -/

/-- Configuration with one monitored name and no throughput estimation. -/
def cfgPlain : AppConfig := ⟨false, false, false, false, false, 1, ["cp"]⟩

/-- Configuration with one monitored name and throughput estimation on. -/
def cfgWait : AppConfig := ⟨false, false, false, false, true, 1, ["cp"]⟩

/-- One `cp` process (pid 100) holding one regular descriptor (fd 7) backed
by a 1000-byte file at offset `pos`. -/
def fsOneCp (pos : Nat) : FS :=
  ⟨some ["100"], fun s => s == "100",
   fun s => if s == "100" then some "/bin/cp" else none,
   fun p => if p == 100 then some [7] else none,
   fun p f => if p == 100 && f == 7 then some ⟨true, false, 1000⟩ else none,
   fun p f => if p == 100 && f == 7 then some "/tmp/bigfile" else none,
   fun p f => if p == 100 && f == 7 then some pos else none,
   fun _ _ => 0⟩

/-- Like `fsOneCp`, but fd 7 vanishes between the descriptor listing and the
`get_fdinfo` inspection: the stat during listing succeeds, the readlink
inside `get_fdinfo` fails. -/
def fsVanish : FS :=
  ⟨some ["100"], fun s => s == "100",
   fun s => if s == "100" then some "/bin/cp" else none,
   fun p => if p == 100 then some [4] else none,
   fun p f => if p == 100 && f == 4 then some ⟨true, false, 5⟩ else none,
   fun _ _ => none,
   fun _ _ => none,
   fun _ _ => 0⟩

/-- Second snapshot in which fd 7 of pid 100 now resolves to a different
path (descriptor reused), with fresh size, offset and time. -/
def fsRetargeted : FS :=
  ⟨some ["100"], fun s => s == "100",
   fun s => if s == "100" then some "/bin/cp" else none,
   fun p => if p == 100 then some [7] else none,
   fun p f => if p == 100 && f == 7 then some ⟨true, false, 2000⟩ else none,
   fun p f => if p == 100 && f == 7 then some "/tmp/otherfile" else none,
   fun p f => if p == 100 && f == 7 then some 50 else none,
   fun _ _ => 5⟩

/-- A `/proc` whose listing itself fails. -/
def fsNoProc : FS :=
  ⟨none, fun _ => false, fun _ => none, fun _ => none,
   fun _ _ => none, fun _ _ => none, fun _ _ => none, fun _ _ => 0⟩

/-- A `cp` process whose descriptor directory lists successfully but is
empty: the process is reported inactive. -/
def fsIdle : FS :=
  ⟨some ["100"], fun s => s == "100",
   fun s => if s == "100" then some "/bin/cp" else none,
   fun p => if p == 100 then some ([] : List Nat) else none,
   fun _ _ => none, fun _ _ => none, fun _ _ => none, fun _ _ => 0⟩

/-- Configuration monitoring a name (`cat`) that no process matches. -/
def cfgCat : AppConfig := ⟨false, false, false, false, false, 1, ["cat"]⟩

/-- `cfgCat` with `quiet` set. -/
def cfgCatQuiet : AppConfig := ⟨false, false, false, true, false, 1, ["cat"]⟩

/-!  Selection lemmas for the `fd_size_max` / `fd_biggest` accumulation. -/

lemma fd_biggest_aux_eq_none (l : List FdInfo) :
    ∀ (szmax : Nat) (best : Option FdInfo),
      fd_biggest_aux l szmax best = none ↔ best = none ∧ ∀ f ∈ l, f.size ≤ szmax := by
  induction l with
  | nil => intro szmax best; simp [fd_biggest_aux]
  | cons f rest ih =>
    intro szmax best
    by_cases h : szmax < f.size
    · rw [fd_biggest_aux, if_pos h, ih]
      constructor
      · rintro ⟨h1, -⟩; exact absurd h1 (by simp)
      · rintro ⟨-, h2⟩
        exact absurd (h2 f (List.mem_cons_self f rest)) (by omega)
    · rw [fd_biggest_aux, if_neg h, ih]
      constructor
      · rintro ⟨h1, h2⟩
        refine ⟨h1, ?_⟩
        intro g hg
        rcases List.mem_cons.mp hg with rfl | hg
        · omega
        · exact h2 g hg
      · rintro ⟨h1, h2⟩
        exact ⟨h1, fun g hg => h2 g (List.mem_cons_of_mem _ hg)⟩

lemma fd_biggest_aux_eq_some (l : List FdInfo) :
    ∀ (szmax : Nat) (best : Option FdInfo) (f : FdInfo),
      fd_biggest_aux l szmax best = some f →
      (best = some f ∧ ∀ g ∈ l, g.size ≤ szmax) ∨
      (szmax < f.size ∧ ∃ l1 l2, l = l1 ++ f :: l2 ∧
        (∀ g ∈ l1, g.size < f.size) ∧ (∀ g ∈ l2, g.size ≤ f.size)) := by
  induction l with
  | nil =>
    intro szmax best f h
    left
    exact ⟨h, by simp⟩
  | cons f0 rest ih =>
    intro szmax best f h
    by_cases h0 : szmax < f0.size
    · rw [fd_biggest_aux, if_pos h0] at h
      rcases ih f0.size (some f0) f h with ⟨h1, h2⟩ | ⟨h1, l1, l2, hl, ha, hb⟩
      · obtain rfl : f0 = f := by injection h1
        right
        exact ⟨h0, [], rest, by simp, by simp, h2⟩
      · right
        refine ⟨lt_trans h0 h1, f0 :: l1, l2, by simp [hl], ?_, hb⟩
        intro g hg
        rcases List.mem_cons.mp hg with rfl | hg
        · exact h1
        · exact ha g hg
    · rw [fd_biggest_aux, if_neg h0] at h
      rcases ih szmax best f h with ⟨h1, h2⟩ | ⟨h1, l1, l2, hl, ha, hb⟩
      · left
        refine ⟨h1, ?_⟩
        intro g hg
        rcases List.mem_cons.mp hg with rfl | hg
        · omega
        · exact h2 g hg
      · right
        refine ⟨h1, f0 :: l1, l2, by simp [hl], ?_, hb⟩
        intro g hg
        rcases List.mem_cons.mp hg with rfl | hg
        · omega
        · exact ha g hg

/-- C3, counterexample: a nonempty descriptor list whose only entry has size
0 — the claim says the unique maximum-size entry (that entry) is returned,
but the selection keeps the integer sentinel (`none`): no entry is returned. -/
theorem C3_counterexample :
    select_biggest [⟨3, 0, 0, "f", 0⟩] = none ∧
      ([⟨3, 0, 0, "f", 0⟩] : List FdInfo) ≠ [] := by
  constructor
  · rfl
  · simp

/-- C3 (amended): the selection returns `none` exactly when every entry of
the truncated list has size 0 (not merely when the list is empty); whenever
it returns an entry, that entry has positive size and is the first entry
attaining the maximum size (entries before it are strictly smaller, entries
after it no larger). -/
theorem C3_select_active_file (l : List FdInfo) :
    (select_biggest l = none ↔ ∀ f ∈ l, f.size = 0) ∧
    (∀ f, select_biggest l = some f →
      0 < f.size ∧ ∃ l1 l2, l = l1 ++ f :: l2 ∧
        (∀ g ∈ l1, g.size < f.size) ∧ (∀ g ∈ l2, g.size ≤ f.size)) := by
  constructor
  · rw [select_biggest, fd_biggest_aux_eq_none]
    simp [Nat.le_zero]
  · intro f h
    rcases fd_biggest_aux_eq_some l 0 none f h with ⟨h1, -⟩ | ⟨h1, hrest⟩
    · exact absurd h1 (by simp)
    · exact ⟨h1, hrest⟩

/-- C3, witness: on a two-entry list with equal sizes 5, the first entry is
selected and the characterization instantiates. -/
theorem C3_witness :
    0 < (⟨1, 5, 0, "a", 0⟩ : FdInfo).size ∧
      ∃ l1 l2, ([⟨1, 5, 0, "a", 0⟩, ⟨2, 5, 0, "b", 0⟩] : List FdInfo) =
          l1 ++ (⟨1, 5, 0, "a", 0⟩ : FdInfo) :: l2 ∧
        (∀ g ∈ l1, g.size < (⟨1, 5, 0, "a", 0⟩ : FdInfo).size) ∧
        (∀ g ∈ l2, g.size ≤ (⟨1, 5, 0, "a", 0⟩ : FdInfo).size) :=
  (C3_select_active_file [⟨1, 5, 0, "a", 0⟩, ⟨2, 5, 0, "b", 0⟩]).2
    ⟨1, 5, 0, "a", 0⟩ (by rfl)

/-- C4, counterexample: at elapsed time exactly 0 the estimator raises
(Python `ZeroDivisionError` at `byte_diff/sec_diff`) instead of reporting a
rate of 0. -/
theorem C4_counterexample :
    throughput_update [] 0 5 = Except.error () ∧
      ∀ h2, throughput_update [] 0 5 ≠ Except.ok (h2, 0) := by
  refine ⟨rfl, ?_⟩
  intro h2 h
  rw [throughput_update, if_pos rfl] at h
  exact Except.noConfusion h

/-- C4 (amended): a zero elapsed time makes the estimator fail (division by
zero) — it is not guarded; for any nonzero elapsed time (including negative),
when fewer than 2 prior samples exist the updated history holds fewer than
the 3 samples the window needs, and the reported rate is 0. -/
theorem C4_few_samples_rate_zero :
    (∀ (hist : List Rat) (byte : Int), throughput_update hist 0 byte = Except.error ()) ∧
    (∀ (hist : List Rat) (sec : Rat) (byte : Int), sec ≠ 0 → hist.length < 2 →
      throughput_update hist sec byte =
        Except.ok (hist.take 2 ++ [(byte : Rat) / sec], 0)) := by
  constructor
  · intro hist byte
    rw [throughput_update, if_pos rfl]
  · intro hist sec byte hsec hlen
    match hist, hlen with
    | [], _ =>
      rw [throughput_update, if_neg hsec]
      rfl
    | [a], _ =>
      rw [throughput_update, if_neg hsec]
      rfl

/-- C4, witness: concrete instances of both amended conjuncts. -/
theorem C4_witness :
    throughput_update [] 0 5 = Except.error () ∧
      throughput_update [] 1 3 = Except.ok ([((3 : Int) : Rat) / (1 : Rat)], 0) :=
  ⟨C4_few_samples_rate_zero.1 [] 5,
   by
    have h := C4_few_samples_rate_zero.2 [] 1 3 (by norm_num) (by simp)
    simpa using h⟩

/-- C5: the history-eviction slice is wrong.  Pushing a fourth observation
into the full history `[1, 2, 3]` keeps the two OLDEST entries and discards
the newest previous entry `3` (`throughputs[tkey][:2]` keeps the first two),
instead of evicting the oldest entry `1` as the claim states, so the history
does not hold the most-recent observations. -/
theorem C5_eviction_eval :
    throughput_update [1, 2, 3] 1 4 = Except.ok ([1, 2, 4], 7 / 3) ∧
      ([1, 2, 4] : List Rat) ≠ [2, 3, 4] := by
  constructor
  · rw [throughput_update, if_neg (by norm_num : (1 : Rat) ≠ 0)]
    norm_num [THROUGHPUT_SAMPLE_SIZE, moving_average, moving_average_go]
  · norm_num

/-- C9, counterexample: when the process-listing facility is unavailable,
`get_pids` raises instead of returning the empty set. -/
theorem C9_counterexample :
    get_pids fsNoProc = Except.error () ∧ get_pids fsNoProc ≠ Except.ok [] := by
  refine ⟨rfl, ?_⟩
  intro h
  rw [get_pids] at h
  exact Except.noConfusion h

/-- C9 (amended): `get_pids` returns the numeric directory entries whenever
the process-listing facility yields a listing, but an unavailable listing
facility makes it raise — it does not return the empty set. -/
theorem C9_list_process_ids (fs : FS) :
    (fs.procEntries = none → get_pids fs = Except.error ()) ∧
    (∀ es, fs.procEntries = some es →
      get_pids fs = Except.ok (es.filter (fun e => isdigitStr e && fs.isDir e))) := by
  constructor
  · intro h
    rw [get_pids, h]
  · intro es h
    rw [get_pids, h]

/-- C9, witness: both branches of the amended claim at concrete states. -/
theorem C9_witness :
    get_pids fsNoProc = Except.error () ∧
      get_pids (fsOneCp 0) =
        Except.ok (["100"].filter (fun e => isdigitStr e && (fsOneCp 0).isDir e)) :=
  ⟨(C9_list_process_ids fsNoProc).1 rfl, (C9_list_process_ids (fsOneCp 0)).2 ["100"] rfl⟩

/-!  Moving-average window invariant. -/

lemma moving_average_go_spec (n : Nat) :
    ∀ (rest w : List Rat) (x : Rat), w.length + 1 = n →
      moving_average_go n (x :: w) (x + w.sum) rest =
        (List.range rest.length).map
          (fun j => (((w ++ rest).drop j).take n).sum / (n : Rat)) := by
  intro rest
  induction rest with
  | nil =>
    intro w x hw
    simp [moving_average_go]
  | cons e rest ih =>
    intro w x hw
    rw [moving_average_go]
    simp only [List.headI_cons, List.tail_cons]
    have hs2 : x + w.sum + e - x = (w ++ [e]).sum := by
      rw [List.sum_append, List.sum_cons, List.sum_nil]
      ring
    rw [hs2]
    obtain ⟨x', w', hw2⟩ : ∃ x' w', w ++ [e] = x' :: w' := by
      cases w with
      | nil => exact ⟨e, [], rfl⟩
      | cons a t => exact ⟨a, t ++ [e], rfl⟩
    have hw' : w'.length + 1 = n := by
      have := congrArg List.length hw2
      simp at this
      omega
    have key : w ++ e :: rest = x' :: (w' ++ rest) := by
      rw [← List.singleton_append, ← List.append_assoc, hw2]
      rfl
    rw [hw2, List.sum_cons, ih w' x' hw']
    rw [List.length_cons, List.range_succ_eq_map, List.map_cons, List.map_map]
    congr 1
    · have htake : (x' :: (w' ++ rest)).take n = x' :: w' := by
        rw [← hw', List.take_succ_cons, List.take_left]
      rw [key, List.drop_zero, htake, List.sum_cons]
    · refine List.map_congr_left ?_
      intro j hj
      simp only [Function.comp_apply]
      rw [key, List.drop_succ_cons]

/-- C7: `moving_average` over window 3 on `[40, 30, 50, 46, 39, 44]` yields
exactly `[40, 42, 45, 43]`, and for every window size `n > 0` it emits one
value per position once `n` elements have been seen, each the mean of the
trailing `n` elements (`movingAverageSpec`). -/
theorem C7_moving_average :
    moving_average [40, 30, 50, 46, 39, 44] 3 = [40, 42, 45, 43] ∧
    ∀ (n : Nat) (l : List Rat), 0 < n → moving_average l n = movingAverageSpec n l := by
  constructor
  · norm_num [moving_average, moving_average_go]
  · intro n l hn
    simp only [moving_average, movingAverageSpec]
    by_cases hlen : n - 1 ≤ l.length
    · have htl : (l.take (n - 1)).length = n - 1 := by
        rw [List.length_take]
        omega
      rw [List.sum_cons,
        moving_average_go_spec n (l.drop (n - 1)) (l.take (n - 1)) 0 (by omega),
        List.take_append_drop, List.length_drop]
      have : l.length - (n - 1) = l.length + 1 - n := by omega
      rw [this]
    · have hd : l.drop (n - 1) = [] := List.drop_eq_nil_of_le (by omega)
      have h0 : l.length + 1 - n = 0 := by omega
      rw [hd, h0]
      simp [moving_average_go]

/-- C7, witness: the general window theorem applied at window 2 on a
concrete list. -/
theorem C7_witness :
    0 < 2 ∧ moving_average [1, 2, 3] 2 = movingAverageSpec 2 [1, 2, 3] :=
  ⟨by norm_num, C7_moving_average.2 2 [1, 2, 3] (by norm_num)⟩

/-- C8: for every size `0 ≤ s < 1024^5`, `format_size` picks exactly the
smallest unit in {bytes, KB, MB, GB, TB} whose scaled magnitude is below
1024 (TB unbounded) and returns the correspondingly scaled value, i.e. it
agrees with `formatSizeSpec`. -/
theorem C8_format_size (s : Rat) (h0 : 0 ≤ s) (h5 : s < 1024 ^ 5) :
    format_size s = formatSizeSpec s := by
  have hp : ∀ k : Nat, (0 : Rat) < 1024 ^ k := fun k => by positivity
  have hlt : ∀ k : Nat, (s / 1024 ^ k < 1024) ↔ s < 1024 ^ (k + 1) := by
    intro k
    rw [div_lt_iff (hp k), mul_comm, ← pow_succ]
  have habs : ∀ k : Nat, (|s / 1024 ^ k| < 1024) ↔ s < 1024 ^ (k + 1) := by
    intro k
    rw [abs_of_nonneg (div_nonneg h0 (le_of_lt (hp k)))]
    exact hlt k
  have hneg : ∀ x : Rat, 0 ≤ x → (-1024 : Rat) < x := by
    intro x hx
    calc (-1024 : Rat) < 0 := by norm_num
    _ ≤ x := hx
  have e1 : s / 1024 = s / 1024 ^ 1 := by norm_num
  have e2 : s / 1024 / 1024 = s / 1024 ^ 2 := by
    rw [div_div]
    norm_num
  have e3 : s / 1024 / 1024 / 1024 = s / 1024 ^ 3 := by
    rw [div_div, div_div]
    norm_num
  have e4 : s / 1024 / 1024 / 1024 / 1024 = s / 1024 ^ 4 := by
    rw [div_div, div_div, div_div]
    norm_num
  have hrange : List.range 4 = [0, 1, 2, 3] := rfl
  rw [format_size, formatSizeSpec, hrange]
  by_cases c0 : s < 1024 ^ (0 + 1)
  · rw [List.find?_cons_of_pos _ (by simpa using (habs 0).mpr c0)]
    rw [format_size_go, if_pos ⟨by simpa using c0, hneg s h0⟩]
    simp [sizeUnits]
  · rw [List.find?_cons_of_neg _ (by simpa using fun h => c0 ((habs 0).mp h))]
    rw [format_size_go, if_neg (by
      rintro ⟨h1, -⟩
      exact c0 ((hlt 0).mp (by simpa using h1)))]
    by_cases c1 : s < 1024 ^ (1 + 1)
    · rw [List.find?_cons_of_pos _ (by simpa using (habs 1).mpr c1)]
      rw [format_size_go, if_pos ⟨by rw [e1]; exact (hlt 1).mpr c1,
        hneg _ (div_nonneg h0 (by norm_num))⟩]
      simp [sizeUnits, e1]
    · rw [List.find?_cons_of_neg _ (by simpa using fun h => c1 ((habs 1).mp h))]
      rw [format_size_go, if_neg (by
        rintro ⟨h1, -⟩
        exact c1 ((hlt 1).mp (by rw [← e1]; exact h1)))]
      by_cases c2 : s < 1024 ^ (2 + 1)
      · rw [List.find?_cons_of_pos _ (by simpa using (habs 2).mpr c2)]
        rw [format_size_go, if_pos ⟨by rw [e2]; exact (hlt 2).mpr c2,
          hneg _ (div_nonneg (div_nonneg h0 (by norm_num)) (by norm_num))⟩]
        simp [sizeUnits, e2]
      · rw [List.find?_cons_of_neg _ (by simpa using fun h => c2 ((habs 2).mp h))]
        rw [format_size_go, if_neg (by
          rintro ⟨h1, -⟩
          exact c2 ((hlt 2).mp (by rw [← e2]; exact h1)))]
        by_cases c3 : s < 1024 ^ (3 + 1)
        · rw [List.find?_cons_of_pos _ (by simpa using (habs 3).mpr c3)]
          rw [format_size_go, if_pos ⟨by rw [e3]; exact (hlt 3).mpr c3,
            hneg _ (div_nonneg (div_nonneg (div_nonneg h0 (by norm_num))
              (by norm_num)) (by norm_num))⟩]
          simp [sizeUnits, e3]
        · rw [List.find?_cons_of_neg _ (by simpa using fun h => c3 ((habs 3).mp h))]
          rw [format_size_go, if_neg (by
            rintro ⟨h1, -⟩
            exact c3 ((hlt 3).mp (by rw [← e3]; exact h1)))]
          rw [format_size_go]
          simp [sizeUnits, e4]

/-- C8, witness: the refinement applied at `s = 2048` (chosen unit KB,
scaled value 2). -/
theorem C8_witness :
    (0 : Rat) ≤ 2048 ∧ (2048 : Rat) < 1024 ^ 5 ∧ format_size 2048 = formatSizeSpec 2048 :=
  ⟨by norm_num, by norm_num, C8_format_size 2048 (by norm_num) (by norm_num)⟩

/-- C1: on a matched process whose active file has size 1000 and position
250, `monitor_processes` reports the raw ratio `250/1000 = 0.25` as the
`"%.1f%%"` value (so the operator sees `0.2%`), NOT `25.0%`: the computation
`float(fd.pos)/fd.size` never multiplies by 100 although the variable is
named `progress_pcnt` and is printed with a percent sign.  The position-0
half of the claim does hold: the guard `fd.pos > 0.0 and fd.size > 0.0`
leaves the value 0 with no division. -/
theorem C1_progress_ratio_not_percent :
    monitor_processes (fsOneCp 250) (fsOneCp 250) cfgPlain (fun _ => []) =
      Except.ok (MonitorRet.listRet
          [⟨⟨100, "cp"⟩, some ⟨7, 1000, 250, "/tmp/bigfile", 0⟩, none, none, 0⟩],
        [OutLine.progress ⟨100, "cp", "/tmp/bigfile",
          ((250 : Nat) : Rat) / ((1000 : Nat) : Rat), 250, 1000, none⟩],
        fun _ => []) ∧
    ((250 : Nat) : Rat) / ((1000 : Nat) : Rat) = 1 / 4 ∧
    (1 / 4 : Rat) ≠ 25 ∧
    monitor_processes (fsOneCp 0) (fsOneCp 0) cfgPlain (fun _ => []) =
      Except.ok (MonitorRet.listRet
          [⟨⟨100, "cp"⟩, some ⟨7, 1000, 0, "/tmp/bigfile", 0⟩, none, none, 0⟩],
        [OutLine.progress ⟨100, "cp", "/tmp/bigfile", 0, 0, 1000, none⟩],
        fun _ => []) :=
  ⟨by rfl, by norm_num, by norm_num, by rfl⟩

/-!  Membership of the descriptor-enumeration loop. -/

lemma find_fd_go_mem (fs : FS) (pid : Nat) (mfd : Option Nat) :
    ∀ (entries acc : List Nat) (fd : Nat),
      fd ∈ find_fd_go fs pid mfd acc entries →
      fd ∈ acc ∨ ∃ st, fs.fdStat pid fd = some st := by
  intro entries
  induction entries with
  | nil =>
    intro acc fd h
    rw [find_fd_go] at h
    exact Or.inl h
  | cons e rest ih =>
    intro acc fd h
    cases hst : fs.fdStat pid e with
    | none =>
      simp only [find_fd_go, hst] at h
      exact ih acc fd h
    | some st =>
      simp only [find_fd_go, hst] at h
      split at h
      · exact ih acc fd h
      · split at h
        · rcases List.mem_append.mp h with h | h
          · exact Or.inl h
          · simp only [List.mem_singleton] at h
            subst h
            exact Or.inr ⟨st, hst⟩
        · rcases ih (acc ++ [e]) fd h with h | h
          · rcases List.mem_append.mp h with h | h
            · exact Or.inl h
            · simp only [List.mem_singleton] at h
              subst h
              exact Or.inr ⟨st, hst⟩
          · exact Or.inr h

/-- C2, counterexample: a descriptor that vanishes between the listing in
`find_fd_for_pid` (where its stat succeeds, so it is listed) and the
`get_fdinfo` inspection (where the readlink fails).  The claim says such a
failure is caught and converted to "no data"; in fact the exception escapes
`get_fdinfo` and aborts the whole `monitor_processes` cycle. -/
theorem C2_counterexample :
    find_fd_for_pid fsVanish 100 none = [4] ∧
    get_fdinfo fsVanish 100 4 = Except.error () ∧
    monitor_processes fsVanish fsVanish cfgPlain (fun _ => []) = Except.error () :=
  ⟨by rfl, by rfl, by rfl⟩

/-- C2 (amended): the failures around descriptor ENUMERATION are caught at
the lowest level — an unlistable descriptor directory yields the empty list
and a descriptor whose stat fails is skipped — but the stat/readlink/offset
failures inside `get_fdinfo` are NOT caught: they propagate out of
`monitor_processes` and abort the cycle. -/
theorem C2_inspection_failures :
    (∀ (fs : FS) (pid : Nat) (mfd : Option Nat),
      fs.fdDir pid = none → find_fd_for_pid fs pid mfd = []) ∧
    (∀ (fs : FS) (pid fd : Nat) (mfd : Option Nat),
      fs.fdStat pid fd = none → fd ∉ find_fd_for_pid fs pid mfd) ∧
    monitor_processes fsVanish fsVanish cfgPlain (fun _ => []) = Except.error () := by
  refine ⟨?_, ?_, by rfl⟩
  · intro fs pid mfd h
    rw [find_fd_for_pid, h]
  · intro fs pid fd mfd h hmem
    rw [find_fd_for_pid] at hmem
    cases hd : fs.fdDir pid with
    | none =>
      rw [hd] at hmem
      simp at hmem
    | some dl =>
      rw [hd] at hmem
      rcases find_fd_go_mem fs pid mfd dl [] fd hmem with h' | ⟨st, hst⟩
      · simp at h'
      · rw [h] at hst
        exact Option.noConfusion hst

/-- C2, witness: both caught-at-the-lowest-level conjuncts at a concrete
state. -/
theorem C2_witness :
    find_fd_for_pid fsNoProc 1 none = [] ∧ (5 : Nat) ∉ find_fd_for_pid fsNoProc 1 none :=
  ⟨C2_inspection_failures.1 fsNoProc 1 none rfl,
   C2_inspection_failures.2.1 fsNoProc 1 5 none rfl⟩

/-- C6, counterexample: on a path mismatch with empty prior history, the
progress line carries NO rate (`none`) — the `" %s/s"` suffix is not printed
at all — rather than a reported rate of 0 as the claim states. -/
theorem C6_counterexample :
    report_result fsRetargeted cfgWait (fun _ => [])
        ⟨⟨100, "cp"⟩, some ⟨7, 1000, 250, "/tmp/bigfile", 0⟩, none, none, 0⟩ =
      Except.ok (OutLine.progress ⟨100, "cp", "/tmp/bigfile",
        ((250 : Nat) : Rat) / ((1000 : Nat) : Rat), 250, 1000, none⟩, fun _ => []) ∧
    (none : Option Rat) ≠ some 0 :=
  ⟨by rfl, by simp⟩

/-- C6 (amended): when throughput mode re-samples a descriptor and the
re-resolved path differs from the recorded one, the observation is
discarded, the key's history table is returned untouched, the progress value
is computed from the stale first sample, and no rate at all is attached to
the line (regardless of prior history). -/
theorem C6_path_mismatch (fs2 : FS) (cfg : AppConfig) (tbl : Nat × Nat → List Rat)
    (pinfo : PidInfo) (rfd cur : FdInfo)
    (hth : cfg.throughput = true)
    (hget : get_fdinfo fs2 pinfo.pid rfd.num = Except.ok cur)
    (hne : cur.name ≠ rfd.name) :
    report_result fs2 cfg tbl ⟨pinfo, some rfd, none, none, 0⟩ =
      Except.ok (OutLine.progress ⟨pinfo.pid, pinfo.name, rfd.name,
        (if 0 < rfd.pos ∧ 0 < rfd.size then (rfd.pos : Rat) / (rfd.size : Rat) else 0),
        rfd.pos, rfd.size, none⟩, tbl) := by
  simp [report_result, hth, hget, hne]

/-- C6, witness: the amended statement at the concrete retargeted state. -/
theorem C6_witness :
    report_result fsRetargeted cfgWait (fun _ => [])
        ⟨⟨100, "cp"⟩, some ⟨7, 1000, 250, "/tmp/bigfile", 0⟩, none, none, 0⟩ =
      Except.ok (OutLine.progress ⟨100, "cp", "/tmp/bigfile",
        (if 0 < (250 : Nat) ∧ 0 < (1000 : Nat)
          then ((250 : Nat) : Rat) / ((1000 : Nat) : Rat) else 0),
        250, 1000, none⟩, fun _ => []) :=
  C6_path_mismatch fsRetargeted cfgWait (fun _ => []) ⟨100, "cp"⟩
    ⟨7, 1000, 250, "/tmp/bigfile", 0⟩ ⟨7, 2000, 50, "/tmp/otherfile", 5⟩
    rfl (by rfl) (by simp)

/-!  The first monitor loop on a run in which every matched process has an
empty descriptor list. -/

lemma phase1_all_inactive (fs : FS) :
    ∀ ps : List PidInfo, (∀ p ∈ ps, find_fd_for_pid fs p.pid none = []) →
      phase1 fs ps = Except.ok (ps.map (fun p => OutLine.inactive p.pid p.name), []) := by
  intro ps
  induction ps with
  | nil =>
    intro _
    rfl
  | cons p rest ih =>
    intro h
    have hp : find_fd_for_pid fs p.pid none = [] := h p (List.mem_cons_self p rest)
    have hrest := ih (fun q hq => h q (List.mem_cons_of_mem _ hq))
    simp [phase1, hp, hrest]

/-- C10: `monitor_processes` returns the integer 0 whenever no process
matches the configured names — in quiet and non-quiet modes alike — and the
`results` list otherwise; in particular it returns the empty list when every
matched process has an empty descriptor list, and both the integer 0 and the
empty list are falsy, so a truthiness test cannot tell the two apart. -/
theorem C10_return_values (fs1 fs2 : FS) (cfg : AppConfig) (tbl : Nat × Nat → List Rat)
    (allPids : List PidInfo)
    (hnames : cfg.proc_names ≠ [])
    (hcollect : collect_pids fs1 cfg.proc_names = Except.ok allPids) :
    (allPids.take MAX_PIDS = [] →
      monitor_processes fs1 fs2 cfg tbl =
        Except.ok (MonitorRet.intRet 0,
          if cfg.quiet then [] else [OutLine.noCommand cfg.proc_names], tbl)) ∧
    (allPids.take MAX_PIDS ≠ [] →
      (∀ p ∈ allPids.take MAX_PIDS, find_fd_for_pid fs1 p.pid none = []) →
      monitor_processes fs1 fs2 cfg tbl =
        Except.ok (MonitorRet.listRet [],
          (allPids.take MAX_PIDS).map (fun p => OutLine.inactive p.pid p.name), tbl)) ∧
    (∀ ret lines tbl2, monitor_processes fs1 fs2 cfg tbl = Except.ok (ret, lines, tbl2) →
      allPids.take MAX_PIDS ≠ [] → ∃ rs, ret = MonitorRet.listRet rs) ∧
    (is_truthy (MonitorRet.intRet 0) = false ∧ is_truthy (MonitorRet.listRet []) = false) := by
  have hne : cfg.proc_names.isEmpty = false := by
    cases h : cfg.proc_names with
    | nil => exact absurd h hnames
    | cons a l => rfl
  refine ⟨?_, ?_, ?_, rfl, rfl⟩
  · intro hemp
    cases hq : cfg.quiet with
    | true => simp [monitor_processes, hne, hcollect, hemp, hq]
    | false => simp [monitor_processes, hne, hcollect, hemp, hq]
  · intro hne2 hall
    have h1 := phase1_all_inactive fs1 (allPids.take MAX_PIDS) hall
    simp [monitor_processes, hne, hcollect, hne2, h1, phase2]
  · intro ret lines tbl2 hmon hne2
    simp only [monitor_processes, hne, Bool.false_eq_true, if_false, hcollect] at hmon
    rw [if_neg (by simpa [List.isEmpty_iff] using hne2)] at hmon
    cases hp1 : phase1 fs1 (allPids.take MAX_PIDS) with
    | error e =>
      rw [hp1] at hmon
      exact Except.noConfusion hmon
    | ok pr =>
      obtain ⟨l1, rs⟩ := pr
      rw [hp1] at hmon
      simp only at hmon
      cases hp2 : phase2 fs2 cfg tbl rs with
      | error e =>
        rw [hp2] at hmon
        exact Except.noConfusion hmon
      | ok pr2 =>
        obtain ⟨l2, t2⟩ := pr2
        rw [hp2] at hmon
        simp only [Except.ok.injEq, Prod.mk.injEq] at hmon
        exact ⟨rs, hmon.1.symm⟩

/-- C10, witness: one matched `cp` process with an empty descriptor list —
the return value is the empty list, which is falsy like the integer 0. -/
theorem C10_witness :
    monitor_processes fsIdle fsIdle cfgPlain (fun _ => []) =
      Except.ok (MonitorRet.listRet [],
        ([(⟨100, "cp"⟩ : PidInfo)].take MAX_PIDS).map (fun p => OutLine.inactive p.pid p.name),
        fun _ => []) :=
  (C10_return_values fsIdle fsIdle cfgPlain (fun _ => []) [⟨100, "cp"⟩]
      (by simp [cfgPlain]) (by rfl)).2.1
    (by simp [MAX_PIDS])
    (by
      intro p hp
      simp [MAX_PIDS] at hp
      subst hp
      rfl)
